import Mathlib

/-!
Verification of the OpenTranscribe backend core against its specification.

Each Python function relevant to the claims is shallowly embedded as an
executable Lean definition; timestamps, durations and progress fractions are
modelled as rationals, database tables as lists of records, and the external
embedding store as a finite map from speaker id to an optional vector.
-/

namespace OpenTranscribe

/-! ## Task detection (app/services/task_detection_service.py) -/

/-- A row of the `Task` table, with the fields the stuck-task scan reads.
Timestamps are seconds as rationals; `created_at` is optional because the
code guards against it being unset (`if not task.created_at`). -/
structure TaskR where
  status : String
  updated_at : ℚ
  created_at : Option ℚ
  task_type : String
  deriving DecidableEq, Repr

/-- Modelled from the spec: `app.core.task_config.task_recovery_config` is not
in the repository snapshot.  The spec says the staleness threshold is a fixed
window and that `MAX_TASK_DURATIONS` has a distinct default for transcription
versus other task types, looked up by task type with a `default` fallback. -/
structure TaskConfig where
  stalenessThreshold : ℚ
  maxDurationTranscription : ℚ
  maxDurationDefault : ℚ
  deriving DecidableEq, Repr

/-- `MAX_TASK_DURATIONS.get(task.task_type, MAX_TASK_DURATIONS["default"])`. -/
def TaskConfig.maxDuration (cfg : TaskConfig) (taskType : String) : ℚ :=
  if taskType = "transcription" then cfg.maxDurationTranscription
  else cfg.maxDurationDefault

/-- `TaskDetectionService._is_task_duration_exceeded`: `False` when
`created_at` is unset, otherwise elapsed time strictly above the per-type
maximum duration. -/
def isTaskDurationExceeded (cfg : TaskConfig) (task : TaskR) (now : ℚ) : Bool :=
  match task.created_at with
  | none => false
  | some c => decide (now - c > cfg.maxDuration task.task_type)

/-- The status filter `Task.status.in_(["pending", "in_progress"])`. -/
def isActiveStatus (s : String) : Bool :=
  s = "pending" ∨ s = "in_progress"

/-- `TaskDetectionService.identify_stuck_tasks`: query tasks whose status is
pending or in progress and whose `updated_at` is strictly before
`now - STALENESS_THRESHOLD`, then keep those whose duration is exceeded. -/
def identifyStuckTasks (cfg : TaskConfig) (now : ℚ) (tasks : List TaskR) :
    List TaskR :=
  (tasks.filter fun t =>
      isActiveStatus t.status && decide (t.updated_at < now - cfg.stalenessThreshold)).filter
    fun t => isTaskDurationExceeded cfg t now

/-! ## Hardware detection (app/utils/hardware_detection.py) -/

/-- The device kinds `HardwareConfig._detect_optimal_device` can return. -/
inductive Device where
  | cuda
  | mps
  | cpu
  deriving DecidableEq, Repr

/-- `HardwareConfig._get_optimal_batch_size`.  For CUDA the device memory in
GiB is queried inside a `try`; `none` models the query raising, in which case
the code falls back to 8. -/
def getOptimalBatchSize (device : Device) (memoryGb : Option ℚ) : Nat :=
  match device, memoryGb with
  | Device.cuda, some m =>
      if m ≥ 24 then 16
      else if m ≥ 12 then 8
      else if m ≥ 6 then 4
      else 2
  | Device.cuda, none => 8
  | Device.mps, _ => 8
  | Device.cpu, _ => 1

/-- Python's `str.strip()`: drop leading and trailing whitespace.  Defined
over the character list so that it evaluates inside the kernel. -/
def stripStr (s : String) : String :=
  String.mk (((s.data.dropWhile Char.isWhitespace).reverse.dropWhile
    Char.isWhitespace).reverse)

/-! ## Transcript segment storage (app/tasks/transcription/storage.py) -/

/-- A row of the `TranscriptSegment` table.  The speaker reference is
nullable (only transiently, per the data model). -/
structure TranscriptSegmentR where
  media_file_id : ℕ
  start_time : ℚ
  end_time : ℚ
  text : String
  speaker_id : Option ℕ
  deriving DecidableEq, Repr

/-- One processed segment handed to `save_transcript_segments` (the dict
keys `start`, `end`, `text`, `speaker_id`). -/
structure NewSegment where
  start : ℚ
  end_ : ℚ
  text : String
  speaker_id : Option ℕ
  deriving DecidableEq, Repr

/-- `save_transcript_segments`: delete every existing segment of the file,
then insert one row per new segment, in order. -/
def saveTranscriptSegments (db : List TranscriptSegmentR) (fileId : ℕ)
    (segments : List NewSegment) : List TranscriptSegmentR :=
  db.filter (fun r => r.media_file_id ≠ fileId) ++
    segments.map fun s => ⟨fileId, s.start, s.end_, s.text, s.speaker_id⟩

/-! ## Speakers and the verification workflow (app/api/endpoints/speakers.py) -/

/-- A row of the `Speaker` table, with the fields the resolution workflow
reads and writes. -/
structure SpeakerR where
  id : ℕ
  user_id : ℕ
  media_file_id : ℕ
  profile_id : Option ℕ
  verified : Bool
  confidence : Option ℚ
  suggested_name : Option String
  display_name : Option String
  deriving DecidableEq, Repr

/-- `_reject_speaker_suggestion`: clear the profile assignment, mark
verified, and clear the confidence score.  The `suggested_name` column is
not touched by this handler. -/
def rejectSpeakerSuggestion (s : SpeakerR) : SpeakerR :=
  { s with profile_id := none, verified := true, confidence := none }

/-- Python `max` over a nonempty list (0 as a harmless fallback for `[]`,
which the call sites guard against). -/
def maxList : List ℚ → ℚ
  | [] => 0
  | h :: t => t.foldl max h

/-- The `suggested_name` value `list_speakers` puts in its response for a
speaker: the stored suggestion, suppressed only when the speaker has a
truthy suggested name and a truthy (nonzero) confidence, cross-video
matches exist, the confidence is below 0.5 and the best cross-video match
is more than 0.3 above it.  `matchConfidences` are the confidences of
`raw_cross_video_matches`. -/
def listSuggestedName (s : SpeakerR) (matchConfidences : List ℚ) : Option String :=
  match s.suggested_name, s.confidence with
  | some n, some c =>
      if n ≠ "" ∧ c ≠ 0 ∧ matchConfidences ≠ [] then
        if c < 1/2 ∧ maxList matchConfidences > c + 3/10 then none else some n
      else some n
  | some n, none => some n
  | none, _ => none

/-! ## Speaker merge (merge_speakers in app/api/endpoints/speakers.py) -/

/-- Elementwise sum of a list of equal-length vectors (`np.vstack` followed
by a column sum). -/
def vecSum : List (List ℚ) → List ℚ
  | [] => []
  | [v] => v
  | v :: w :: rest => List.zipWith (· + ·) v (vecSum (w :: rest))

/-- `np.mean(np.array(vs), axis=0)` for equal-length vectors: the
elementwise arithmetic mean. -/
def meanVec (vs : List (List ℚ)) : List ℚ :=
  (vecSum vs).map fun x => x / (vs.length : ℚ)

/-- The persistent state `merge_speakers` touches: the segment table, the
speaker table, and the external embedding store (at most one current
vector per speaker, keyed here by speaker id). -/
structure MergeState where
  segments : List TranscriptSegmentR
  speakers : List SpeakerR
  store : ℕ → Option (List ℚ)

/-- `merge_speakers(source, target)` past the ownership check:
re-parent every segment of `source` to `target`; if both speakers have a
(truthy, i.e. nonempty) stored embedding and the two vectors stack (equal
length — otherwise `np` raises and the `except` skips the averaging),
overwrite `target`'s stored embedding with their elementwise mean; delete
the `source` speaker row; and drop `source`'s embedding (modelled from the
spec for the external `merge_speaker_embeddings` call: merges overwrite,
not append, and at most one current vector per speaker remains). -/
def mergeSpeakers (st : MergeState) (source target : SpeakerR) : MergeState :=
  let segments := st.segments.map fun s =>
    if s.speaker_id = some source.id then { s with speaker_id := some target.id } else s
  let store1 : ℕ → Option (List ℚ) :=
    match st.store source.id, st.store target.id with
    | some sv, some tv =>
        if sv ≠ [] ∧ tv ≠ [] ∧ sv.length = tv.length then
          fun k => if k = target.id then some (meanVec [sv, tv]) else st.store k
        else st.store
    | _, _ => st.store
  let speakers := st.speakers.filter fun sp => sp.id ≠ source.id
  ⟨segments, speakers, fun k => if k = source.id then none else store1 k⟩

/-! ## Segment-to-identity embedding
(app/services/speaker_embedding_service.py) -/

/-- A diarized transcript segment as produced by the pipeline: times in
seconds, the assigned diarization label (absent when assignment failed for
that segment), and the transcribed text. -/
structure DiarSegment where
  start : ℚ
  end_ : ℚ
  speaker : Option String
  text : String
  deriving DecidableEq, Repr

/-- Duration of a segment in seconds. -/
def segDuration (s : DiarSegment) : ℚ := s.end_ - s.start

/-- Longest-first comparison used to sort a speaker's segments
(`key=lambda x: x["end"] - x["start"], reverse=True`). -/
def longerEq (a b : DiarSegment) : Prop := segDuration b ≤ segDuration a

instance : DecidableRel longerEq :=
  fun a b => inferInstanceAs (Decidable (segDuration b ≤ segDuration a))

instance : IsTotal DiarSegment longerEq :=
  ⟨fun a b => (le_total (segDuration b) (segDuration a))⟩

instance : IsTrans DiarSegment longerEq :=
  ⟨fun _ _ _ hab hbc => le_trans hbc hab⟩

/-- The grouping loop of `extract_embeddings_for_segments` restricted to one
speaker id: keep the segments carrying a truthy diarization label that the
mapping sends to this (truthy, i.e. nonzero) speaker id, skipping segments
shorter than 0.5 seconds. -/
def eligibleSegments (mapping : String → Option ℕ) (sid : ℕ)
    (segments : List DiarSegment) : List DiarSegment :=
  segments.filter fun s =>
    match s.speaker with
    | none => false
    | some lbl =>
        if lbl = "" then false
        else match mapping lbl with
          | none => false
          | some k => k ≠ 0 && k = sid && !(segDuration s < 1/2 : Bool)

/-- Sort the speaker's segments longest first (Python's stable sort with
`reverse=True`) and keep at most the first 5. -/
def selectedSegments (mapping : String → Option ℕ) (sid : ℕ)
    (segments : List DiarSegment) : List DiarSegment :=
  (List.insertionSort longerEq (eligibleSegments mapping sid segments)).take 5

/-- The embeddings collected for one speaker: one extraction attempt per
selected segment, keeping the successful ones
(`if embedding is not None: embeddings.append(embedding)`). -/
def extractEmbeddingsForSpeaker (extractEmb : DiarSegment → Option (List ℚ))
    (mapping : String → Option ℕ) (sid : ℕ) (segments : List DiarSegment) :
    List (List ℚ) :=
  (selectedSegments mapping sid segments).filterMap extractEmb

/-- `aggregate_embeddings`: raises on an empty list (modelled as `none`),
returns a singleton unchanged, and otherwise the elementwise mean. -/
def aggregateEmbeddings : List (List ℚ) → Option (List ℚ)
  | [] => none
  | [e] => some e
  | es => some (meanVec es)

/-- The representative vector stored for one diarization-local speaker:
aggregate of the embeddings extracted from its selected segments. -/
def speakerRepresentative (extractEmb : DiarSegment → Option (List ℚ))
    (mapping : String → Option ℕ) (sid : ℕ) (segments : List DiarSegment) :
    Option (List ℚ) :=
  aggregateEmbeddings (extractEmbeddingsForSpeaker extractEmb mapping sid segments)

/-! ## Suggestion consolidation (list_speakers and
SmartSpeakerSuggestionService) -/

/-- One individual cross-recording similarity match. -/
structure MatchEntry where
  name : String
  confidence : ℚ
  media_file_id : ℕ
  deriving DecidableEq, Repr

/-- One consolidated suggestion entry. -/
structure ConsolidatedSuggestion where
  name : String
  confidence : ℚ
  individual_matches : List MatchEntry
  deriving DecidableEq, Repr

/-- Descending-confidence comparison for consolidated suggestions. -/
def higherConf (a b : ConsolidatedSuggestion) : Prop :=
  b.confidence ≤ a.confidence

instance : DecidableRel higherConf :=
  fun a b => inferInstanceAs (Decidable (b.confidence ≤ a.confidence))

instance : IsTotal ConsolidatedSuggestion higherConf :=
  ⟨fun a b => (le_total b.confidence a.confidence)⟩

instance : IsTrans ConsolidatedSuggestion higherConf :=
  ⟨fun _ _ _ hab hbc => le_trans hbc hab⟩

/-- Maximum confidence of a group of matches, seeded with the confidence
floor: every group this is applied to is nonempty and consists of matches
at or above the floor, so the result is the group's maximum. -/
def maxConfOver (floor : ℚ) (group : List MatchEntry) : ℚ :=
  (group.map (·.confidence)).foldl max floor

/-- Modelled from the spec:
`SmartSpeakerSuggestionService.consolidate_suggestions` is not in the
repository snapshot (only its call site in `list_speakers` is).  Per the
spec it discards matches below the confidence floor, consolidates matches
sharing a display name into one entry carrying the max confidence and the
list of contributing per-recording matches, ranks entries descending by
confidence and caps them at the presentation maximum. -/
def consolidateSuggestions (ms : List MatchEntry) (threshold : ℚ)
    (maxSuggestions : ℕ) : List ConsolidatedSuggestion :=
  let kept := ms.filter fun m => threshold ≤ m.confidence
  let entries := ((kept.map (·.name)).dedup).map fun n =>
    let group := kept.filter fun m => m.name = n
    ⟨n, maxConfOver threshold group, group⟩
  (List.insertionSort higherConf entries).take maxSuggestions

/-- The `voice_suggestions` loop of `list_speakers`: consolidation is
invoked with `confidence_threshold=0.5` and `max_suggestions=5`, then each
formatted match is kept only when its confidence is at least 0.50 and its
name is truthy and non-blank. -/
def voiceSuggestions (ms : List MatchEntry) : List ConsolidatedSuggestion :=
  (consolidateSuggestions ms (1/2) 5).filter fun m =>
    decide ((1:ℚ)/2 ≤ m.confidence) && !(m.name = "") && !(stripStr m.name = "")

/-! ## Orchestrator content gate and progress trace
(app/tasks/transcription/core.py and whisperx_service.py) -/

/-- The dict returned by `process_full_pipeline` as the content gate reads
it; `none` models a falsy result. -/
structure PipelineResult where
  segments : List DiarSegment
  language : String
  deriving DecidableEq, Repr

/-- The data-quality classification the orchestrator applies to the
pipeline output. -/
inductive ContentCheck where
  | noValidAudio
  | noSpeechContent
  | ok
  deriving DecidableEq, Repr

/-- The two validation checks of `transcribe_audio_task` after
`process_full_pipeline` returns: a falsy or empty segment list is "no
audio content"; segments whose stripped texts are all empty are "no
speech content". -/
def checkTranscriptionContent (result : Option PipelineResult) : ContentCheck :=
  match result with
  | none => ContentCheck.noValidAudio
  | some r =>
      if r.segments.isEmpty then ContentCheck.noValidAudio
      else if r.segments.any (fun s => !(stripStr s.text = "")) then ContentCheck.ok
      else ContentCheck.noSpeechContent

/-- The user-facing message stored for the "no audio content" failure. -/
def noAudioMessage : String :=
  "No audio content could be detected in this file. " ++
  "The file may be corrupted, contain only silence, or be in an unsupported format. " ++
  "Please check the file and try uploading again."

/-- The user-facing message stored for the "no speech content" failure. -/
def noSpeechMessage : String :=
  "No speech could be detected in this file. " ++
  "The file may contain only music, background noise, or silence. " ++
  "Please verify the file contains clear speech and try again."

/-- The observable outcome of one run past the content gate: terminal task
status, the distinct error classification returned to the caller, the
recording status, and the error message stored on the recording. -/
structure RunEffects where
  taskStatus : String
  errorType : Option String
  fileStatus : String
  lastErrorMessage : Option String
  deriving DecidableEq, Repr

/-- `transcribe_audio_task` from the content gate onward, as it acts on the
segment table: on a data-quality failure the task is failed with its
distinct classification, the recording goes to error with the message
stored, and the save step is never reached; otherwise the processed
segments are saved and the run completes. -/
def transcribeAfterPipeline (db : List TranscriptSegmentR) (fileId : ℕ)
    (result : Option PipelineResult) (processed : List NewSegment) :
    RunEffects × List TranscriptSegmentR :=
  match checkTranscriptionContent result with
  | ContentCheck.noValidAudio =>
      (⟨"failed", some "no_valid_audio", "error", some noAudioMessage⟩, db)
  | ContentCheck.noSpeechContent =>
      (⟨"failed", some "no_speech_content", "error", some noSpeechMessage⟩, db)
  | ContentCheck.ok =>
      (⟨"completed", none, "completed", none⟩, saveTranscriptSegments db fileId processed)

/-- One observable progress-related action of a run: a persisted progress
update (`update_task_status` with an in-progress status), a progress
notification (`send_progress_notification` or the WhisperX callback), or
the one terminal status update with its optional progress. -/
inductive ProgressEvent where
  | persistProgress (p : ℚ)
  | notifyProgress (p : ℚ)
  | finalStatus (status : String) (progress : Option ℚ)
  deriving DecidableEq, Repr

/-- The progress values a trace persists or notifies, in program order. -/
def progressValues (tr : List ProgressEvent) : List ℚ :=
  tr.filterMap fun e =>
    match e with
    | ProgressEvent.persistProgress p => some p
    | ProgressEvent.notifyProgress p => some p
    | ProgressEvent.finalStatus _ p => p

/-- The last terminal status recorded in a trace, if any. -/
def finalStatusOf (tr : List ProgressEvent) : Option String :=
  tr.foldl
    (fun acc e =>
      match e with
      | ProgressEvent.finalStatus s _ => some s
      | _ => acc)
    none

/-- Every non-terminal progress event `transcribe_audio_task` (with the
schedule of `process_full_pipeline`'s callback at 0.42/0.50/0.55/0.65)
emits on a run that reaches the final update, in program order.  The 0.82
persistence sits inside the speaker-identification `try`; when that stage
fails its exception is swallowed and the run continues without it
(`embeddingOk = false`). -/
def mainEvents (embeddingOk : Bool) : List ProgressEvent :=
  [ProgressEvent.persistProgress (1/10),
   ProgressEvent.persistProgress (1/4), ProgressEvent.notifyProgress (1/4),
   ProgressEvent.persistProgress (2/5), ProgressEvent.notifyProgress (2/5),
   ProgressEvent.persistProgress (21/50), ProgressEvent.notifyProgress (21/50),
   ProgressEvent.persistProgress (1/2), ProgressEvent.notifyProgress (1/2),
   ProgressEvent.persistProgress (11/20), ProgressEvent.notifyProgress (11/20),
   ProgressEvent.persistProgress (13/20), ProgressEvent.notifyProgress (13/20),
   ProgressEvent.notifyProgress (17/25),
   ProgressEvent.persistProgress (18/25), ProgressEvent.notifyProgress (18/25),
   ProgressEvent.persistProgress (3/4), ProgressEvent.notifyProgress (3/4),
   ProgressEvent.persistProgress (39/50), ProgressEvent.notifyProgress (39/50)]
  ++ (if embeddingOk then [ProgressEvent.persistProgress (41/50)] else [])
  ++ [ProgressEvent.persistProgress (17/20), ProgressEvent.notifyProgress (17/20),
      ProgressEvent.notifyProgress (19/20)]

/-- How one execution of `transcribe_audio_task` can end.  `notFound`: the
file lookup fails and no task record exists.  `completedRun`: the run
reaches the final `completed` update with progress 1.0.  `failedRun k`:
a data-quality failure, a gated-model error or an unhandled exception
aborts the run after its first `k` events and the task is marked failed
with no progress value. -/
inductive RunOutcome where
  | notFound
  | completedRun (embeddingOk : Bool)
  | failedRun (embeddingOk : Bool) (k : ℕ)
  deriving DecidableEq, Repr

/-- The event trace of one run. -/
def runTrace : RunOutcome → List ProgressEvent
  | RunOutcome.notFound => []
  | RunOutcome.completedRun ok =>
      mainEvents ok ++ [ProgressEvent.finalStatus "completed" (some 1)]
  | RunOutcome.failedRun ok k =>
      (mainEvents ok).take k ++ [ProgressEvent.finalStatus "failed" none]

/-! ## Helper lemmas -/

/-- Membership characterization of the stuck-task scan. -/
theorem mem_identifyStuckTasks (cfg : TaskConfig) (now : ℚ) (tasks : List TaskR)
    (t : TaskR) :
    t ∈ identifyStuckTasks cfg now tasks ↔
      t ∈ tasks ∧
      (t.status = "pending" ∨ t.status = "in_progress") ∧
      now - t.updated_at > cfg.stalenessThreshold ∧
      (∃ c, t.created_at = some c ∧ now - c > cfg.maxDuration t.task_type) := by
  unfold identifyStuckTasks
  rw [List.mem_filter, List.mem_filter]
  simp only [Bool.and_eq_true, decide_eq_true_eq, isActiveStatus,
    isTaskDurationExceeded]
  cases h : t.created_at with
  | none =>
      simp only [h]
      constructor
      · rintro ⟨-, hfalse⟩
        exact absurd hfalse (by simp)
      · rintro ⟨-, -, -, c, hc, -⟩
        exact Option.noConfusion hc
  | some c =>
      simp only [h, decide_eq_true_eq, Option.some.injEq]
      constructor
      · rintro ⟨⟨hmem, hst, hup⟩, hdur⟩
        exact ⟨hmem, hst, by rw [gt_iff_lt, lt_sub_comm]; exact hup,
          c, rfl, hdur⟩
      · rintro ⟨hmem, hst, hup, c2, rfl, hdur⟩
        refine ⟨⟨hmem, hst, ?_⟩, hdur⟩
        rw [gt_iff_lt, lt_sub_comm] at hup
        exact hup

/-! ## Claim theorems -/

/-- Claim C5: a task is classified as a stuck execution if and only if its
status is pending or in progress, its last status update is older than the
staleness window, and its elapsed time since creation exceeds the
per-task-type maximum duration (looked up with a transcription-specific
entry and a default for other task types). -/
theorem stuck_task_classification (cfg : TaskConfig) (now : ℚ)
    (tasks : List TaskR) (t : TaskR) :
    t ∈ identifyStuckTasks cfg now tasks ↔
      t ∈ tasks ∧
      (t.status = "pending" ∨ t.status = "in_progress") ∧
      now - t.updated_at > cfg.stalenessThreshold ∧
      (∃ c, t.created_at = some c ∧ now - c > cfg.maxDuration t.task_type) :=
  mem_identifyStuckTasks cfg now tasks t

/-- Claim C10: a task whose `created_at` is unset is never classified as
stuck, regardless of status and staleness, because the duration check
returns `False` for it. -/
theorem unset_created_at_never_stuck (cfg : TaskConfig) (now : ℚ)
    (tasks : List TaskR) (t : TaskR) (h : t.created_at = none) :
    t ∉ identifyStuckTasks cfg now tasks := by
  intro hmem
  obtain ⟨-, -, -, c, hc, -⟩ := (mem_identifyStuckTasks cfg now tasks t).mp hmem
  rw [h] at hc
  exact Option.noConfusion hc

/-- A pending transcription task with no `created_at`, last updated at time
0 and scanned at time 100 with a 60-second staleness window: the scan does
not flag it. -/
theorem unset_created_at_never_stuck_witness :
    (TaskR.mk "pending" 0 none "transcription").created_at = none ∧
    TaskR.mk "pending" 0 none "transcription" ∉
      identifyStuckTasks (TaskConfig.mk 60 3600 1800) 100
        [TaskR.mk "pending" 0 none "transcription"] :=
  ⟨rfl,
    unset_created_at_never_stuck (TaskConfig.mk 60 3600 1800) 100
      [TaskR.mk "pending" 0 none "transcription"]
      (TaskR.mk "pending" 0 none "transcription") rfl⟩

/-- Claim C8: batch size is picked from available device memory by the
tiers at least 24 GiB to 16, at least 12 GiB to 8, at least 6 GiB to 4 and
otherwise 2, while a CPU-only configuration always forces batch size 1. -/
theorem batch_size_tiers (m : ℚ) (o : Option ℚ) :
    (24 ≤ m → getOptimalBatchSize Device.cuda (some m) = 16) ∧
    (12 ≤ m → m < 24 → getOptimalBatchSize Device.cuda (some m) = 8) ∧
    (6 ≤ m → m < 12 → getOptimalBatchSize Device.cuda (some m) = 4) ∧
    (m < 6 → getOptimalBatchSize Device.cuda (some m) = 2) ∧
    getOptimalBatchSize Device.cpu o = 1 := by
  refine ⟨fun h1 => ?_, fun h1 h2 => ?_, fun h1 h2 => ?_, fun h1 => ?_, ?_⟩
  · simp only [getOptimalBatchSize]
    rw [if_pos h1]
  · simp only [getOptimalBatchSize]
    rw [if_neg (not_le.mpr h2), if_pos h1]
  · simp only [getOptimalBatchSize]
    rw [if_neg (not_le.mpr (h2.trans (by norm_num))), if_neg (not_le.mpr h2),
      if_pos h1]
  · simp only [getOptimalBatchSize]
    rw [if_neg (not_le.mpr (h1.trans (by norm_num))),
      if_neg (not_le.mpr (h1.trans (by norm_num))), if_neg (not_le.mpr h1)]
  · cases o <;> rfl

/-- The tiers evaluated at 30, 13, 7 and 3 GiB and on CPU. -/
theorem batch_size_tiers_witness :
    getOptimalBatchSize Device.cuda (some 30) = 16 ∧
    getOptimalBatchSize Device.cuda (some 13) = 8 ∧
    getOptimalBatchSize Device.cuda (some 7) = 4 ∧
    getOptimalBatchSize Device.cuda (some 3) = 2 ∧
    getOptimalBatchSize Device.cpu none = 1 :=
  ⟨(batch_size_tiers 30 none).1 (by decide),
    (batch_size_tiers 13 none).2.1 (by decide) (by decide),
    (batch_size_tiers 7 none).2.2.1 (by decide) (by decide),
    (batch_size_tiers 3 none).2.2.2.1 (by decide),
    (batch_size_tiers 0 none).2.2.2.2⟩

/-- Claim C2 counterexample: rejecting a speaker whose suggestion is
"Alice" at confidence 0.8 clears the profile and marks verified, but the
`suggested_name` column is not cleared, and the listing endpoint still
returns "Alice" for it afterwards — so the claim that rejection clears the
suggestion fails at this input. -/
theorem reject_claim_counterexample :
    ¬((rejectSpeakerSuggestion (SpeakerR.mk 1 1 1 (some 7) false (some (4/5))
          (some "Alice") none)).profile_id = none ∧
      (rejectSpeakerSuggestion (SpeakerR.mk 1 1 1 (some 7) false (some (4/5))
          (some "Alice") none)).suggested_name = none ∧
      (rejectSpeakerSuggestion (SpeakerR.mk 1 1 1 (some 7) false (some (4/5))
          (some "Alice") none)).verified = true) ∧
    (rejectSpeakerSuggestion (SpeakerR.mk 1 1 1 (some 7) false (some (4/5))
        (some "Alice") none)).suggested_name = some "Alice" ∧
    listSuggestedName (rejectSpeakerSuggestion (SpeakerR.mk 1 1 1 (some 7)
        false (some (4/5)) (some "Alice") none)) [] = some "Alice" := by
  refine ⟨fun h => ?_, rfl, rfl⟩
  exact Option.noConfusion h.2.1

/-- Claim C2 (amended): the reject action clears the profile assignment
and the suggestion's confidence score and marks the speaker verified — a
terminal, verified state — but leaves the `suggested_name` column
unchanged. -/
theorem reject_clears_profile_and_confidence (s : SpeakerR) :
    (rejectSpeakerSuggestion s).profile_id = none ∧
    (rejectSpeakerSuggestion s).verified = true ∧
    (rejectSpeakerSuggestion s).confidence = none ∧
    (rejectSpeakerSuggestion s).suggested_name = s.suggested_name :=
  ⟨rfl, rfl, rfl, rfl⟩

/-- Claim C9: after `save_transcript_segments`, the recording's segment
rows are exactly the rows built from the new list (in order, no old row
surviving), and rows of other recordings are untouched. -/
theorem save_replaces_segments (db : List TranscriptSegmentR) (fileId : ℕ)
    (segments : List NewSegment) :
    ((saveTranscriptSegments db fileId segments).filter
        fun r => r.media_file_id = fileId) =
      (segments.map fun s =>
        TranscriptSegmentR.mk fileId s.start s.end_ s.text s.speaker_id) ∧
    ((saveTranscriptSegments db fileId segments).filter
        fun r => r.media_file_id ≠ fileId) =
      db.filter fun r => r.media_file_id ≠ fileId := by
  constructor
  · rw [saveTranscriptSegments, List.filter_append]
    have h1 : ((db.filter fun r => r.media_file_id ≠ fileId).filter
        fun r => r.media_file_id = fileId) = [] := by
      rw [List.filter_eq_nil_iff]
      intro a ha
      rw [List.mem_filter] at ha
      simp only [decide_eq_true_eq] at ha ⊢
      exact ha.2
    have h2 : (((segments.map fun s =>
          TranscriptSegmentR.mk fileId s.start s.end_ s.text s.speaker_id)).filter
        fun r => r.media_file_id = fileId) =
        segments.map fun s =>
          TranscriptSegmentR.mk fileId s.start s.end_ s.text s.speaker_id := by
      rw [List.filter_eq_self]
      intro a ha
      rw [List.mem_map] at ha
      obtain ⟨s, -, rfl⟩ := ha
      exact decide_eq_true rfl
    rw [h1, h2, List.nil_append]
  · rw [saveTranscriptSegments, List.filter_append]
    have h1 : ((db.filter fun r => r.media_file_id ≠ fileId).filter
        fun r => r.media_file_id ≠ fileId) =
        db.filter fun r => r.media_file_id ≠ fileId := by
      rw [List.filter_eq_self]
      intro a ha
      rw [List.mem_filter] at ha
      exact ha.2
    have h2 : (((segments.map fun s =>
          TranscriptSegmentR.mk fileId s.start s.end_ s.text s.speaker_id)).filter
        fun r => r.media_file_id ≠ fileId) = [] := by
      rw [List.filter_eq_nil_iff]
      intro a ha
      rw [List.mem_map] at ha
      obtain ⟨s, -, rfl⟩ := ha
      simp
    rw [h1, h2, List.append_nil]

/-- The elementwise mean of two equal-length vectors, as `np.mean` computes
it over a two-row stack. -/
theorem meanVec_pair (sv tv : List ℚ) :
    meanVec [sv, tv] = List.zipWith (fun a b => (a + b) / 2) sv tv := by
  simp only [meanVec, vecSum, List.map_zipWith, List.length_cons,
    List.length_nil]
  norm_num

/-- Claim C1: merging `source` into `target` (both owned by the same user,
both with a stored embedding) leaves zero segments referencing the source,
re-parents exactly the source's former segments to the target and touches
no other segment, stores the elementwise arithmetic mean of the two
pre-merge embeddings against the target, and deletes the source speaker
row. -/
theorem merge_speakers_correct (st : MergeState) (source target : SpeakerR)
    (hsrc : source ∈ st.speakers) (htgt : target ∈ st.speakers)
    (howner : source.user_id = target.user_id)
    (hne : source.id ≠ target.id)
    (sv tv : List ℚ)
    (hsv : st.store source.id = some sv) (htv : st.store target.id = some tv)
    (hsne : sv ≠ []) (htne : tv ≠ []) (hlen : sv.length = tv.length) :
    (∀ s ∈ (mergeSpeakers st source target).segments,
        s.speaker_id ≠ some source.id) ∧
    List.Forall₂
      (fun old new =>
        (old.speaker_id = some source.id → new.speaker_id = some target.id) ∧
        (old.speaker_id ≠ some source.id → new = old))
      st.segments (mergeSpeakers st source target).segments ∧
    (mergeSpeakers st source target).store target.id =
      some (List.zipWith (fun a b => (a + b) / 2) sv tv) ∧
    (∀ sp ∈ (mergeSpeakers st source target).speakers, sp.id ≠ source.id) := by
  refine ⟨?_, ?_, ?_, ?_⟩
  · intro s hs
    simp only [mergeSpeakers, List.mem_map] at hs
    obtain ⟨a, -, rfl⟩ := hs
    by_cases h : a.speaker_id = some source.id
    · rw [if_pos h]
      intro hcontra
      exact hne (Option.some.inj hcontra).symm
    · rw [if_neg h]
      exact h
  · show List.Forall₂ _ st.segments (st.segments.map _)
    rw [List.forall₂_map_right_iff, List.forall₂_same]
    intro a _
    by_cases h : a.speaker_id = some source.id
    · exact ⟨fun _ => by rw [if_pos h], fun hcontra => absurd h hcontra⟩
    · exact ⟨fun hcontra => absurd hcontra h, fun _ => by rw [if_neg h]⟩
  · show (fun k => if k = source.id then none else _) target.id = _
    simp only
    rw [if_neg (Ne.symm hne), hsv, htv]
    simp only
    rw [if_pos ⟨hsne, htne, hlen⟩, if_pos rfl, meanVec_pair]
  · intro sp hsp
    simp only [mergeSpeakers, List.mem_filter, decide_eq_true_eq] at hsp
    exact hsp.2

/-- A concrete merge: speakers 1 and 2 of user 5, with embeddings
`[1, 3]` and `[3, 5]`, three segments, the first referencing the source. -/
def mergeDemoState : MergeState :=
  ⟨[⟨10, 0, 1, "hi", some 1⟩, ⟨10, 1, 2, "yo", some 2⟩, ⟨10, 2, 3, "mm", none⟩],
   [⟨1, 5, 10, none, false, none, none, none⟩,
    ⟨2, 5, 10, none, false, none, none, none⟩],
   fun k => if k = 1 then some [1, 3] else if k = 2 then some [3, 5] else none⟩

/-- The source speaker of the concrete merge. -/
def mergeDemoSource : SpeakerR := ⟨1, 5, 10, none, false, none, none, none⟩

/-- The target speaker of the concrete merge. -/
def mergeDemoTarget : SpeakerR := ⟨2, 5, 10, none, false, none, none, none⟩

/-- The merge claim evaluated on the concrete state: no segment references
speaker 1 afterwards, re-parenting is exact, the target's stored embedding
is `[2, 4]` (the elementwise mean), and speaker 1 is gone. -/
theorem merge_speakers_correct_witness :
    (∀ s ∈ (mergeSpeakers mergeDemoState mergeDemoSource mergeDemoTarget).segments,
        s.speaker_id ≠ some mergeDemoSource.id) ∧
    List.Forall₂
      (fun old new =>
        (old.speaker_id = some mergeDemoSource.id →
          new.speaker_id = some mergeDemoTarget.id) ∧
        (old.speaker_id ≠ some mergeDemoSource.id → new = old))
      mergeDemoState.segments
      (mergeSpeakers mergeDemoState mergeDemoSource mergeDemoTarget).segments ∧
    (mergeSpeakers mergeDemoState mergeDemoSource mergeDemoTarget).store
        mergeDemoTarget.id =
      some (List.zipWith (fun a b => (a + b) / 2) [1, 3] [3, 5]) ∧
    (∀ sp ∈ (mergeSpeakers mergeDemoState mergeDemoSource mergeDemoTarget).speakers,
        sp.id ≠ mergeDemoSource.id) :=
  merge_speakers_correct mergeDemoState mergeDemoSource mergeDemoTarget
    (by decide) (by decide) rfl (by decide) [1, 3] [3, 5]
    (by decide) (by decide) (by decide) (by decide) (by decide)

/-- Claim C3: when the pipeline produces zero segments the run fails with
the distinct "no audio content" classification, and when it produces only
segments without non-whitespace text it fails with the distinct "no speech
content" classification; in both cases the recording is set to error with
the message stored on it and the segment table is left untouched (no
segments are created for the run). -/
theorem no_content_fails_distinctly (db : List TranscriptSegmentR)
    (fileId : ℕ) (result : Option PipelineResult) (processed : List NewSegment) :
    ((result = none ∨ ∃ r, result = some r ∧ r.segments = []) →
      (transcribeAfterPipeline db fileId result processed).1 =
          RunEffects.mk "failed" (some "no_valid_audio") "error"
            (some noAudioMessage) ∧
      (transcribeAfterPipeline db fileId result processed).2 = db) ∧
    (∀ r, result = some r → r.segments ≠ [] →
      (∀ s ∈ r.segments, stripStr s.text = "") →
      (transcribeAfterPipeline db fileId result processed).1 =
          RunEffects.mk "failed" (some "no_speech_content") "error"
            (some noSpeechMessage) ∧
      (transcribeAfterPipeline db fileId result processed).2 = db) := by
  constructor
  · intro h
    have hcheck : checkTranscriptionContent result = ContentCheck.noValidAudio := by
      rcases h with h | ⟨r, rfl, hr⟩
      · rw [h]; rfl
      · simp [checkTranscriptionContent, hr]
    simp [transcribeAfterPipeline, hcheck]
  · rintro r rfl hne hall
    have hcheck : checkTranscriptionContent (some r) =
        ContentCheck.noSpeechContent := by
      have hempty : r.segments.isEmpty = false := by
        cases hseg : r.segments with
        | nil => exact absurd hseg hne
        | cons a l => rfl
      have hany : (r.segments.any fun s => !(stripStr s.text = "")) = false := by
        rw [List.any_eq_false]
        intro s hs
        rw [hall s hs]
        simp
      simp [checkTranscriptionContent, hempty, hany]
    simp [transcribeAfterPipeline, hcheck]

/-- The content gate evaluated on a pipeline result with zero segments and
on one whose only segment's text is whitespace: both fail with their
distinct classification and leave the one pre-existing segment row
untouched. -/
theorem no_content_fails_distinctly_witness :
    ((transcribeAfterPipeline [TranscriptSegmentR.mk 4 0 1 "old" none] 4
        (some (PipelineResult.mk [] "en")) []).1 =
      RunEffects.mk "failed" (some "no_valid_audio") "error"
        (some noAudioMessage) ∧
     (transcribeAfterPipeline [TranscriptSegmentR.mk 4 0 1 "old" none] 4
        (some (PipelineResult.mk [] "en")) []).2 =
      [TranscriptSegmentR.mk 4 0 1 "old" none]) ∧
    ((transcribeAfterPipeline [TranscriptSegmentR.mk 4 0 1 "old" none] 4
        (some (PipelineResult.mk [DiarSegment.mk 0 2 none "  "] "en")) []).1 =
      RunEffects.mk "failed" (some "no_speech_content") "error"
        (some noSpeechMessage) ∧
     (transcribeAfterPipeline [TranscriptSegmentR.mk 4 0 1 "old" none] 4
        (some (PipelineResult.mk [DiarSegment.mk 0 2 none "  "] "en")) []).2 =
      [TranscriptSegmentR.mk 4 0 1 "old" none]) :=
  ⟨(no_content_fails_distinctly [TranscriptSegmentR.mk 4 0 1 "old" none] 4
      (some (PipelineResult.mk [] "en")) []).1
      (Or.inr ⟨PipelineResult.mk [] "en", rfl, rfl⟩),
   (no_content_fails_distinctly [TranscriptSegmentR.mk 4 0 1 "old" none] 4
      (some (PipelineResult.mk [DiarSegment.mk 0 2 none "  "] "en")) []).2
      (PipelineResult.mk [DiarSegment.mk 0 2 none "  "] "en") rfl
      (by decide) (by decide)⟩

/-- Claim C4: over every possible run of the transcription task, the
sequence of persisted and notified progress values is monotonically
non-decreasing, and it contains the value 1.0 exactly when the run's
terminal status is `completed` — a failed run never reports progress
1.0. -/
theorem progress_monotone_and_terminal (o : RunOutcome) :
    List.Chain' (· ≤ ·) (progressValues (runTrace o)) ∧
    ((1 : ℚ) ∈ progressValues (runTrace o) ↔
      finalStatusOf (runTrace o) = some "completed") := by
  cases o with
  | notFound =>
      exact ⟨List.chain'_nil, by simp [runTrace, progressValues, finalStatusOf]⟩
  | completedRun ok =>
      cases ok <;> refine ⟨?_, ?_⟩
      · simp only [runTrace, mainEvents, progressValues, List.filterMap_append,
          List.filterMap, if_false, List.append_nil, List.nil_append,
          Bool.false_eq_true, List.append_assoc, List.cons_append]
        simp only [List.chain'_cons, List.chain'_singleton]
        norm_num
      · simp only [runTrace, mainEvents, progressValues, List.filterMap_append,
          List.filterMap, if_false, List.append_nil, List.nil_append,
          Bool.false_eq_true, List.append_assoc, List.cons_append,
          finalStatusOf, List.foldl]
        simp only [List.mem_cons, List.not_mem_nil, or_false]
        norm_num
      · simp only [runTrace, mainEvents, progressValues, List.filterMap_append,
          List.filterMap, if_true, List.append_nil, List.nil_append,
          List.append_assoc, List.cons_append]
        simp only [List.chain'_cons, List.chain'_singleton]
        norm_num
      · simp only [runTrace, mainEvents, progressValues, List.filterMap_append,
          List.filterMap, if_true, List.append_nil, List.nil_append,
          List.append_assoc, List.cons_append, finalStatusOf, List.foldl]
        simp only [List.mem_cons, List.not_mem_nil, or_false]
        norm_num
  | failedRun ok k =>
      have hsplit : progressValues
          ((mainEvents ok).take k ++ [ProgressEvent.finalStatus "failed" none]) =
          progressValues ((mainEvents ok).take k) ++
            progressValues [ProgressEvent.finalStatus "failed" none] :=
        List.filterMap_append _ _ _
      have hnilpv : progressValues [ProgressEvent.finalStatus "failed" none] =
          [] := rfl
      have hpv : progressValues
          ((mainEvents ok).take k ++ [ProgressEvent.finalStatus "failed" none]) =
          progressValues ((mainEvents ok).take k) := by
        rw [hsplit, hnilpv, List.append_nil]
      have hsub : List.Sublist (progressValues ((mainEvents ok).take k))
          (progressValues (mainEvents ok)) :=
        List.Sublist.filterMap _ (List.take_sublist k (mainEvents ok))
      have hchain : List.Chain' (· ≤ ·) (progressValues (mainEvents ok)) := by
        cases ok <;>
          · simp only [mainEvents, progressValues, List.filterMap_append,
              List.filterMap, if_true, if_false, Bool.false_eq_true,
              List.append_nil, List.nil_append, List.append_assoc,
              List.cons_append]
            simp only [List.chain'_cons, List.chain'_singleton]
            norm_num
      have hnotone : (1 : ℚ) ∉ progressValues (mainEvents ok) := by
        cases ok <;>
          · simp only [mainEvents, progressValues, List.filterMap_append,
              List.filterMap, if_true, if_false, Bool.false_eq_true,
              List.append_nil, List.nil_append, List.append_assoc,
              List.cons_append]
            simp only [List.mem_cons, List.not_mem_nil, or_false]
            norm_num
      have hfs : finalStatusOf
          ((mainEvents ok).take k ++ [ProgressEvent.finalStatus "failed" none]) =
          some "failed" := by
        rw [finalStatusOf, List.foldl_append]
        rfl
      refine ⟨?_, ?_⟩
      · rw [runTrace, hpv]
        exact hchain.sublist hsub
      · rw [runTrace, hpv, hfs]
        constructor
        · intro h1
          exact absurd (hsub.mem h1) hnotone
        · intro h2
          exact absurd (Option.some.inj h2) (by decide)

/-- Segments surviving the eligibility filter last at least half a
second. -/
theorem eligible_duration {mapping : String → Option ℕ} {sid : ℕ}
    {segments : List DiarSegment} {s : DiarSegment}
    (h : s ∈ eligibleSegments mapping sid segments) :
    (1 : ℚ)/2 ≤ segDuration s := by
  rw [eligibleSegments, List.mem_filter] at h
  obtain ⟨-, hf⟩ := h
  cases hsp : s.speaker with
  | none => rw [hsp] at hf; exact absurd hf (by simp)
  | some lbl =>
      rw [hsp] at hf
      have hf2 : (if lbl = "" then false
          else match mapping lbl with
            | none => false
            | some k => decide (k ≠ 0) && decide (k = sid) &&
                !decide (segDuration s < 1/2)) = true := hf
      by_cases hlbl : lbl = ""
      · rw [if_pos hlbl] at hf2
        exact absurd hf2 (by simp)
      · rw [if_neg hlbl] at hf2
        cases hm : mapping lbl with
        | none => rw [hm] at hf2; exact absurd hf2 (by simp)
        | some k =>
            rw [hm] at hf2
            have hf3 : (decide (k ≠ 0) && decide (k = sid) &&
                !decide (segDuration s < 1/2)) = true := hf2
            simp only [Bool.and_eq_true, Bool.not_eq_true',
              decide_eq_false_iff_not] at hf3
            exact not_lt.mp hf3.2

/-- Selected segments come from the eligible pool. -/
theorem selected_subset_eligible {mapping : String → Option ℕ} {sid : ℕ}
    {segments : List DiarSegment} {s : DiarSegment}
    (h : s ∈ selectedSegments mapping sid segments) :
    s ∈ eligibleSegments mapping sid segments := by
  rw [selectedSegments] at h
  exact (List.mem_insertionSort longerEq).mp (List.mem_of_mem_take h)

/-- `filterMap` of a function that succeeds on every element pairs each
element with its output. -/
theorem forall₂_filterMap_isSome {α β : Type _} (f : α → Option β) :
    ∀ (l : List α), (∀ s ∈ l, (f s).isSome) →
      List.Forall₂ (fun s e => f s = some e) l (l.filterMap f)
  | [], _ => by simp
  | a :: l, h => by
      obtain ⟨v, hv⟩ :=
        Option.isSome_iff_exists.mp (h a (List.mem_cons_self a l))
      rw [List.filterMap_cons, hv]
      exact List.Forall₂.cons hv
        (forall₂_filterMap_isSome f l fun s hs =>
          h s (List.mem_cons_of_mem a hs))

/-- The mean of a single vector is that vector. -/
theorem meanVec_single (e : List ℚ) : meanVec [e] = e := by
  simp [meanVec, vecSum]

/-- Claim C6: for one diarization-local speaker, every segment shorter than
0.5 seconds is excluded and every selected segment lasts at least 0.5
seconds; at most 5 segments are selected, sorted longest first, and they
are the longest eligible ones; one embedding is extracted per selected
segment (pairing each segment with its embedding in order); and the
speaker's representative vector is the elementwise arithmetic mean of
those embeddings. -/
theorem embedding_selection_spec (extractEmb : DiarSegment → Option (List ℚ))
    (mapping : String → Option ℕ) (sid : ℕ) (segments : List DiarSegment)
    (hsome : ∀ s ∈ selectedSegments mapping sid segments,
      (extractEmb s).isSome) :
    (∀ s ∈ segments, segDuration s < 1/2 →
      s ∉ selectedSegments mapping sid segments) ∧
    (∀ s ∈ selectedSegments mapping sid segments, (1 : ℚ)/2 ≤ segDuration s) ∧
    (selectedSegments mapping sid segments).length ≤ 5 ∧
    List.Chain' (fun a b => segDuration b ≤ segDuration a)
      (selectedSegments mapping sid segments) ∧
    (∀ s ∈ eligibleSegments mapping sid segments,
      s ∉ selectedSegments mapping sid segments →
      ∀ t ∈ selectedSegments mapping sid segments,
        segDuration s ≤ segDuration t) ∧
    List.Forall₂ (fun s e => extractEmb s = some e)
      (selectedSegments mapping sid segments)
      (extractEmbeddingsForSpeaker extractEmb mapping sid segments) ∧
    (selectedSegments mapping sid segments ≠ [] →
      speakerRepresentative extractEmb mapping sid segments =
        some (meanVec (extractEmbeddingsForSpeaker extractEmb mapping sid
          segments))) := by
  have hforall : List.Forall₂ (fun s e => extractEmb s = some e)
      (selectedSegments mapping sid segments)
      (extractEmbeddingsForSpeaker extractEmb mapping sid segments) :=
    forall₂_filterMap_isSome extractEmb _ hsome
  have hsorted : List.Pairwise longerEq
      (List.insertionSort longerEq (eligibleSegments mapping sid segments)) :=
    List.sorted_insertionSort longerEq (eligibleSegments mapping sid segments)
  refine ⟨?_, ?_, ?_, ?_, ?_, hforall, ?_⟩
  · intro s _ hshort hsel
    exact absurd (eligible_duration (selected_subset_eligible hsel))
      (not_le.mpr hshort)
  · intro s hs
    exact eligible_duration (selected_subset_eligible hs)
  · exact List.length_take_le 5 _
  · exact ((hsorted.sublist (List.take_sublist 5 _)).chain')
  · intro s hs hnotsel t ht
    have hsplit : List.Pairwise longerEq
        ((List.insertionSort longerEq
            (eligibleSegments mapping sid segments)).take 5 ++
          (List.insertionSort longerEq
            (eligibleSegments mapping sid segments)).drop 5) := by
      rw [List.take_append_drop]
      exact hsorted
    have hsmem : s ∈ List.insertionSort longerEq
        (eligibleSegments mapping sid segments) :=
      (List.mem_insertionSort longerEq).mpr hs
    rw [← List.take_append_drop 5
      (List.insertionSort longerEq (eligibleSegments mapping sid segments)),
      List.mem_append] at hsmem
    rcases hsmem with htake | hdrop
    · exact absurd htake hnotsel
    · exact (List.pairwise_append.mp hsplit).2.2 t ht s hdrop
  · intro hne
    have hlen := hforall.length_eq
    cases hemb : extractEmbeddingsForSpeaker extractEmb mapping sid segments with
    | nil =>
        rw [hemb, List.length_nil, List.length_eq_zero] at hlen
        exact absurd hlen hne
    | cons e rest =>
        cases rest with
        | nil =>
            rw [speakerRepresentative, hemb, aggregateEmbeddings,
              meanVec_single]
        | cons e2 rest2 =>
            rw [speakerRepresentative, hemb]
            rfl

/-- The diarization mapping of the concrete selection scenario. -/
def demoMapping : String → Option ℕ :=
  fun lbl => if lbl = "A" then some 1 else none

/-- Three segments of speaker `A`: two eligible (durations 2 and 1) and a
zero-length one that must be excluded. -/
def demoSegments : List DiarSegment :=
  [⟨0, 2, some "A", "hello"⟩, ⟨2, 2, some "A", "uh"⟩, ⟨3, 4, some "A", "yes"⟩]

/-- The selection claim evaluated on the concrete scenario with an
extractor that always succeeds. -/
theorem embedding_selection_spec_witness :
    (∀ s ∈ demoSegments, segDuration s < 1/2 →
      s ∉ selectedSegments demoMapping 1 demoSegments) ∧
    (∀ s ∈ selectedSegments demoMapping 1 demoSegments,
      (1 : ℚ)/2 ≤ segDuration s) ∧
    (selectedSegments demoMapping 1 demoSegments).length ≤ 5 ∧
    List.Chain' (fun a b => segDuration b ≤ segDuration a)
      (selectedSegments demoMapping 1 demoSegments) ∧
    (∀ s ∈ eligibleSegments demoMapping 1 demoSegments,
      s ∉ selectedSegments demoMapping 1 demoSegments →
      ∀ t ∈ selectedSegments demoMapping 1 demoSegments,
        segDuration s ≤ segDuration t) ∧
    List.Forall₂ (fun s e => (fun _ => some [(1 : ℚ), 2]) s = some e)
      (selectedSegments demoMapping 1 demoSegments)
      (extractEmbeddingsForSpeaker (fun _ => some [(1 : ℚ), 2]) demoMapping 1
        demoSegments) ∧
    (selectedSegments demoMapping 1 demoSegments ≠ [] →
      speakerRepresentative (fun _ => some [(1 : ℚ), 2]) demoMapping 1
          demoSegments =
        some (meanVec (extractEmbeddingsForSpeaker
          (fun _ => some [(1 : ℚ), 2]) demoMapping 1 demoSegments))) :=
  embedding_selection_spec (fun _ => some [(1 : ℚ), 2]) demoMapping 1
    demoSegments (fun _ _ => rfl)

/-- A max-fold never goes below its seed. -/
theorem le_foldl_max (q0 : ℚ) (l : List ℚ) : q0 ≤ l.foldl max q0 := by
  induction l generalizing q0 with
  | nil => exact le_refl q0
  | cons a t ih => exact le_trans (le_max_left q0 a) (ih (max q0 a))

/-- Every consolidated suggestion sits at or above the confidence floor. -/
theorem consolidate_confidence_floor {ms : List MatchEntry} {threshold : ℚ}
    {maxSuggestions : ℕ} {s : ConsolidatedSuggestion}
    (h : s ∈ consolidateSuggestions ms threshold maxSuggestions) :
    threshold ≤ s.confidence := by
  rw [consolidateSuggestions] at h
  have hmem := (List.mem_insertionSort higherConf).mp (List.mem_of_mem_take h)
  rw [List.mem_map] at hmem
  obtain ⟨n, -, rfl⟩ := hmem
  exact le_foldl_max threshold _

/-- Claim C7: resolver output never contains a suggestion below confidence
0.5 — neither among the consolidated suggestions (built with the 0.5 floor
and the cap of 5) nor among the `voice_suggestions` the listing endpoint
derives from them — and both lists are ranked descending by confidence and
capped at 5 entries. -/
theorem suggestions_filtered_ranked_capped (ms : List MatchEntry) :
    (∀ s ∈ consolidateSuggestions ms (1/2) 5, (1 : ℚ)/2 ≤ s.confidence) ∧
    List.Pairwise (fun a b => b.confidence ≤ a.confidence)
      (consolidateSuggestions ms (1/2) 5) ∧
    (consolidateSuggestions ms (1/2) 5).length ≤ 5 ∧
    (∀ s ∈ voiceSuggestions ms, (1 : ℚ)/2 ≤ s.confidence) ∧
    List.Pairwise (fun a b => b.confidence ≤ a.confidence)
      (voiceSuggestions ms) ∧
    (voiceSuggestions ms).length ≤ 5 := by
  have hpair : List.Pairwise higherConf (consolidateSuggestions ms (1/2) 5) := by
    rw [consolidateSuggestions]
    exact (List.sorted_insertionSort higherConf _).sublist
      (List.take_sublist 5 _)
  refine ⟨?_, hpair, ?_, ?_, ?_, ?_⟩
  · intro s hs
    exact consolidate_confidence_floor hs
  · rw [consolidateSuggestions]
    exact List.length_take_le 5 _
  · intro s hs
    rw [voiceSuggestions, List.mem_filter] at hs
    exact consolidate_confidence_floor hs.1
  · exact hpair.sublist (List.filter_sublist _)
  · exact le_trans (List.length_filter_le _ _)
      (by rw [consolidateSuggestions]; exact List.length_take_le 5 _)

end OpenTranscribe
